import Mathlib

/-!
Verification of the TradingView-Webhook-Trading-Bot execution pipeline.

The development shallowly embeds the Python source files
(`v2_handler.py`, `worker.py`, `orderapi.py`, `config.py`) into Lean:

* Python strings are modelled as `List Char` (`Str`); the string methods
  `upper`, `strip`, `replace`, `endswith`, `in`, slicing and `str.isdigit`
  are modelled by executable Lean functions with the same semantics.
* Python numbers (floats handled exactly) are modelled by `ℚ`; `int(...)`
  truncation toward zero is `pyIntTrunc`.
* A Python function that can `raise` is modelled with the `PyRes` result
  type; database tables are modelled by explicit state records.
-/

/-- Python strings, modelled as lists of characters. -/
abbrev Str := List Char

/-- Result of a Python call that may raise an exception. -/
inductive PyRes (α : Type) where
  | ok (val : α)
  | exn (msg : String)
  deriving DecidableEq

/-- Python `int(q)` on an exact numeric value: truncation toward zero. -/
def pyIntTrunc (q : ℚ) : ℤ := q.num.tdiv q.den

/-- Python `str.upper` (ASCII letters, which is all the source manipulates). -/
def pyUpper (s : Str) : Str := s.map Char.toUpper

/-- Python `str.strip`: remove leading and trailing whitespace. -/
def pyStrip (s : Str) : Str :=
  ((s.dropWhile Char.isWhitespace).reverse.dropWhile Char.isWhitespace).reverse

/-- Fuel-driven worker for `pyReplace`; the fuel is always instantiated with
the length of the string, which suffices because every step consumes at
least one character. -/
def replaceAllFuel (pat rep : Str) : ℕ → Str → Str
  | _, [] => []
  | 0, s => s
  | fuel+1, c :: rest =>
    if pat ≠ [] ∧ pat.isPrefixOf (c :: rest) then
      rep ++ replaceAllFuel pat rep fuel (rest.drop (pat.length - 1))
    else c :: replaceAllFuel pat rep fuel rest

/-- Python `s.replace(pat, rep)`: replace every non-overlapping occurrence
of `pat`, scanning left to right (for non-empty `pat`, which is the only
way the source uses it). -/
def pyReplace (s pat rep : Str) : Str := replaceAllFuel pat rep s.length s

/-- Python `s.endswith(suf)`. -/
def pyEndsWith (s suf : Str) : Bool := suf.isSuffixOf s

/-- Python `c in s` for a single character. -/
def pyContainsChar (s : Str) (c : Char) : Bool := s.contains c

/-- Python `needle in hay` for strings: `needle` occurs contiguously in `hay`. -/
def pyInStr (needle hay : String) : Bool :=
  hay.toList.tails.any fun t => needle.toList.isPrefixOf t

/-- The characters of `"USD"`. -/
def cUSD : Str := ['U', 'S', 'D']

/-- The characters of `"USDT"`. -/
def cUSDT : Str := ['U', 'S', 'D', 'T']

/-- `orderapi._is_crypto`: a symbol is crypto iff (after upper-casing) it
contains `/` or ends in `USD`/`USDT`. -/
def is_crypto (raw : Str) : Bool :=
  let s := pyUpper raw
  pyContainsChar s '/' || pyEndsWith s cUSD || pyEndsWith s cUSDT

/-- `orderapi._norm_trade_symbol`: strip/upper, and for crypto symbols
remove exchange prefixes, map `USDT` to `USD`, and drop `/` and `:`. -/
def norm_trade_symbol (raw : Str) : Str :=
  let s := pyUpper (pyStrip raw)
  if is_crypto s then
    let s1 := pyReplace s ['B', 'I', 'N', 'A', 'N', 'C', 'E', ':'] []
    let s2 := pyReplace s1 ['C', 'O', 'I', 'N', 'B', 'A', 'S', 'E', ':'] []
    let s3 := pyReplace s2 ['F', 'T', 'X', ':'] []
    let s4 := pyReplace s3 cUSDT cUSD
    let s5 := pyReplace s4 ['/'] []
    pyReplace s5 [':'] []
  else s

/-- `orderapi._to_crypto_pair_for_data`: convert `ETHUSD`/`ETHUSDT` to
`ETH/USD` for the data API; only when the symbol classifies as crypto. -/
def to_crypto_pair_for_data (symbol_raw : Str) : Str :=
  let s := pyUpper (pyStrip symbol_raw)
  if ¬ (is_crypto s = true) then s
  else if pyContainsChar s '/' then s
  else
    let base := pyReplace s cUSDT cUSD
    if pyEndsWith base cUSD = true ∧ 3 < base.length then
      base.take (base.length - 3) ++ '/' :: cUSD
    else s

/-! ## v2_handler.py: bar-time coercion and the ingress handler -/

/-- Model of `datetime.fromisoformat` on an ISO-8601 string the source can
parse: `wall` is the epoch-second value of the wall-clock fields when read
as UTC; `withTz` carries the parsed UTC offset in seconds. -/
inductive IsoParse where
  | noTz (wall : ℚ)
  | withTz (wall : ℚ) (offsetSec : ℤ)
  deriving DecidableEq

/-- The `bar_time` value of an incoming webhook payload, classified the way
`_coerce_bar_time_ms` dispatches on it: absent, numeric (int/float), a
string of digits, a parseable ISO-8601 string, an empty/whitespace string,
or an unparseable non-empty string. -/
inductive RawBarTime where
  | missing
  | num (v : ℚ)
  | strDigits (n : ℕ)
  | strIso (p : IsoParse)
  | strEmpty
  | strBad
  deriving DecidableEq

/-- The numeric branch of `_coerce_bar_time_ms`: values at least `1e11` are
already milliseconds, values at least `1e9` are seconds, anything else is
taken as milliseconds as-is. -/
def coerce_num_ms (v : ℚ) : ℤ :=
  if 100000000000 ≤ v then pyIntTrunc v
  else if 1000000000 ≤ v then pyIntTrunc (v * 1000)
  else pyIntTrunc v

/-- `datetime.timestamp()` of the parsed ISO value after the source forces
`tzinfo=UTC` on naive datetimes: a naive wall-clock is read as UTC, an
aware one subtracts its UTC offset. -/
def iso_timestamp_sec : IsoParse → ℚ
  | .noTz wall => wall
  | .withTz wall off => wall - (off : ℚ)

/-- `v2_handler._coerce_bar_time_ms`. Digit strings re-enter the numeric
branch via `int(s)`; parse failures raise `ValueError`. -/
def coerce_bar_time_ms : RawBarTime → PyRes ℤ
  | .missing => .exn "bar_time missing"
  | .num v => .ok (coerce_num_ms v)
  | .strEmpty => .exn "bar_time empty"
  | .strDigits n => .ok (coerce_num_ms (n : ℚ))
  | .strIso p => .ok (pyIntTrunc (iso_timestamp_sec p * 1000))
  | .strBad => .exn "invalid ISO bar_time"

/-- Python `str(x).upper()` on a Lean `String`. -/
def strUpper (s : String) : String := String.mk (pyUpper s.data)

/-- `v2_handler.tv_webhook_v2`: the dedup key
`strategy|ticker|timeframe|bar_time_ms|action`. -/
def dedup_key (strategy ticker timeframe : String) (barMs : ℤ) (action : String) : String :=
  strategy ++ "|" ++ ticker ++ "|" ++ timeframe ++ "|" ++ toString barMs ++ "|" ++ action

/-- An incoming v2 webhook request after HTTP decoding: validation
outcomes of the JSON body, the passphrase and the optional header token,
presence flags for the five required fields, and the field values. -/
structure V2Request where
  jsonOk : Bool
  passphraseOk : Bool
  headerOk : Bool
  hasStrategy : Bool
  hasTicker : Bool
  hasTimeframe : Bool
  hasAction : Bool
  hasBarTime : Bool
  strategy : String
  ticker : String
  timeframe : String
  action : String
  barTime : RawBarTime
  deriving DecidableEq

/-- The store state the v2 ingress handler reads and writes: the set of
`dedup_key` values present in `signals_raw`, the number of `order_queue`
rows, and the gates read from `account_state` and `strategies`. -/
structure IngressDB where
  signalKeys : List String
  queueCount : ℕ
  tradingEnabled : Bool
  strategyActive : Bool
  deriving DecidableEq

/-- The response classes of `tv_webhook_v2`. `uncaughtError` stands for an
exception escaping the handler (Flask then produces an HTTP 500). -/
inductive V2Status where
  | invalidJson
  | badPassphrase
  | badHeaderToken
  | missingField
  | invalidBarTime
  | dupIgnored
  | tradingDisabled
  | strategyPaused
  | queued
  | uncaughtError
  deriving DecidableEq

/-- Outcome of one ingress call: response class, HTTP status code, and the
store state after the call. -/
structure V2Outcome where
  status : V2Status
  httpCode : ℕ
  db : IngressDB
  deriving DecidableEq

/-- `v2_handler.tv_webhook_v2`. `db` is the store as seen by the dedup
pre-check; `dbAtInsert` is the store at the moment of the raw-signal
insert (a concurrent request may have inserted the same key in between;
in a single-threaded run `dbAtInsert = db`). The insert into
`signals_raw` raises on a `dedup_key` uniqueness violation, and nothing
in the handler catches that exception. -/
def tv_webhook_v2 (r : V2Request) (db dbAtInsert : IngressDB) : V2Outcome :=
  if ¬ (r.jsonOk = true) then ⟨.invalidJson, 400, db⟩
  else if ¬ (r.passphraseOk = true) then ⟨.badPassphrase, 401, db⟩
  else if ¬ (r.headerOk = true) then ⟨.badHeaderToken, 401, db⟩
  else if ¬ (r.hasStrategy = true ∧ r.hasTicker = true ∧ r.hasTimeframe = true ∧
      r.hasAction = true ∧ r.hasBarTime = true) then ⟨.missingField, 400, db⟩
  else
    match coerce_bar_time_ms r.barTime with
    | .exn _ => ⟨.invalidBarTime, 400, db⟩
    | .ok ms =>
      let key := dedup_key r.strategy r.ticker r.timeframe ms (strUpper r.action)
      if key ∈ db.signalKeys then ⟨.dupIgnored, 200, db⟩
      else if key ∈ dbAtInsert.signalKeys then ⟨.uncaughtError, 500, dbAtInsert⟩
      else
        let db1 : IngressDB := { dbAtInsert with signalKeys := key :: dbAtInsert.signalKeys }
        if ¬ (db1.tradingEnabled = true) then ⟨.tradingDisabled, 200, db1⟩
        else if ¬ (db1.strategyActive = true) then ⟨.strategyPaused, 200, db1⟩
        else ⟨.queued, 200, { db1 with queueCount := db1.queueCount + 1 }⟩

/-! ## worker.py: the v2 queue state machine -/

/-- Status values of an `order_queue` row. -/
inductive JStatus where
  | ready
  | processing
  | done
  | failed
  deriving DecidableEq

/-- The mutable fields of an `order_queue` row the worker touches. Times
are epoch seconds. -/
structure QJob where
  status : JStatus
  retry_count : ℕ
  next_attempt_at : Option ℤ
  last_error : Option String
  reason : Option String
  deriving DecidableEq

/-- Result dictionary of `orderapi.order`: the `success` flag and the
`message` string. -/
structure OrderResult where
  success : Bool
  message : String
  deriving DecidableEq

/-- Broker response to `submit_order`: accepted, rejected because the
`client_order_id` already exists, or rejected for any other reason. -/
inductive SubmitOutcome where
  | accepted (orderId : String)
  | rejectedAlreadyExists (emsg : String)
  | rejectedOther (emsg : String)
  deriving DecidableEq

/-- The submit stage of `orderapi.order` (lines 438-445): a successful
submit returns `success=True`; any exception raised by the broker client,
including a duplicate-`client_order_id` rejection, is caught by the
enclosing handler and turned into `success=False` with message
`Error: ...`. -/
def order_submit_result (kind qty_str symbol_trade : String) : SubmitOutcome → OrderResult
  | .accepted _ =>
      ⟨true, "✅ Submitted " ++ kind ++ " order for " ++ qty_str ++ " x " ++ symbol_trade⟩
  | .rejectedAlreadyExists e => ⟨false, "Error: " ++ e⟩
  | .rejectedOther e => ⟨false, "Error: " ++ e⟩

/-- The `Error: {e}` failure result of `orderapi.order`'s top-level
exception handler, for an exception with message `emsg`. -/
def order_failure_result (emsg : String) : OrderResult := ⟨false, "Error: " ++ emsg⟩

/-- How a single processing attempt of `process_one_by_id` resolves once
the job has been claimed: the order call succeeded, `risk_guard` raised
(handled by the inner `except`, which marks the job failed), or an
exception reached the outer `except` block (mode mismatch, market closed,
or an `order` failure re-raised as `Exception(result["message"])`). -/
inductive AttemptOutcome where
  | orderOk
  | riskBlocked (msg : String)
  | exc (msg : String)
  deriving DecidableEq

/-- The outer `except` block of `worker.process_one_by_id` (lines
363-395): `market_closed` errors fail immediately; otherwise
`retry_count` is incremented and the job re-readied with a 30-second
backoff while the new count is at most 3, else the row is copied to the
dead-letter queue and the job is failed. Returns the updated job and the
new DLQ row count. -/
def process_one_failure (now : ℤ) (j : QJob) (msg : String) (dlq : ℕ) : QJob × ℕ :=
  if pyInStr "market_closed" msg then
    ({ j with status := .failed, reason := some "market_closed", last_error := some msg }, dlq)
  else
    let rc := j.retry_count + 1
    if rc ≤ 3 then
      ({ j with status := .ready, retry_count := rc, last_error := some msg,
                next_attempt_at := some (now + 30) }, dlq)
    else
      ({ j with status := .failed, reason := some msg }, dlq + 1)

/-- Worker-side state for one queue job: the row, the number of DLQ rows
copied for it, and how many processing attempts have been started (each
attempt submits to the broker at most once). -/
structure WorkerSt where
  job : QJob
  dlqCount : ℕ
  attempts : ℕ
  deriving DecidableEq

/-- The `next_attempt_at` deferral test of `process_one_by_id` (lines
240-248): a parsed timestamp strictly in the future defers the job. -/
def naa_in_future (now : ℤ) (naa : Option ℤ) : Bool :=
  match naa with
  | some t => decide (now < t)
  | none => false

/-- One invocation of `worker.process_one_by_id` on the job: the claim
fails unless the row is `ready`; a `next_attempt_at` in the future defers
(the row is released back to `ready` unchanged); otherwise the attempt
runs and resolves per `AttemptOutcome`. -/
def process_one_step (now : ℤ) (st : WorkerSt) (o : AttemptOutcome) : WorkerSt :=
  if ¬ (st.job.status = .ready) then st
  else if naa_in_future now st.job.next_attempt_at then st
  else
    match o with
    | .orderOk =>
        ⟨{ st.job with status := .done, reason := some "" }, st.dlqCount, st.attempts + 1⟩
    | .riskBlocked m =>
        ⟨{ st.job with status := .failed, reason := some m }, st.dlqCount, st.attempts + 1⟩
    | .exc m =>
        let p := process_one_failure now st.job m st.dlqCount
        ⟨p.1, p.2, st.attempts + 1⟩

/-- A sequence of worker invocations on one job, each with its wall-clock
time and attempt resolution. -/
def worker_run (init : WorkerSt) (trace : List (ℤ × AttemptOutcome)) : WorkerSt :=
  trace.foldl (fun st p => process_one_step p.1 st p.2) init

/-- A freshly enqueued `order_queue` row (`_enqueue_order` inserts it with
`status=ready` and `retry_count` at its column default 0). -/
def job0 : QJob := ⟨.ready, 0, none, none, none⟩

/-- Worker state for a freshly enqueued job. -/
def initWorkerSt : WorkerSt := ⟨job0, 0, 0⟩

/-- Invariant carried through every worker invocation: at most 4 attempts
ever start, `retry_count` stays at most 3, a `ready` row has spent at most
`retry_count` attempts, and the row is never left in `processing`. -/
def WInv (st : WorkerSt) : Prop :=
  st.attempts ≤ 4 ∧ st.job.retry_count ≤ 3 ∧
    (st.job.status = .ready → st.attempts ≤ st.job.retry_count) ∧
    st.job.status ≠ .processing

/-- `worker.process_one_by_id` (lines 254-256): the idempotent client
order id `("q_" + queue_id.replace("-", ""))[:30]`. -/
def client_order_id (queue_id : Str) : Str :=
  (['q', '_'] ++ pyReplace queue_id ['-'] []).take 30

/-- `worker._safe_float` on a field that is either absent (or unparseable)
or an exact numeric value, with a numeric default. -/
def safe_float_d (x : Option ℚ) (d : ℚ) : ℚ := x.getD d

/-- Computed take-profit/stop-loss pair; `none` when not computable. -/
structure TpSl where
  tp : Option ℚ
  sl : Option ℚ
  deriving DecidableEq

/-- `worker.process_one_by_id` (lines 296-312): derive bracket prices when
`price`, `atr` and `trail_atr_mult` are all present. For BUY the stop is
below the entry; for SELL the symmetric formulas run but the result is
never attached (see `attach_tp_sl`). `r_mult` is `r_multiple_tp`
defaulted to 2.0. -/
def compute_tp_sl (action : String) (entry atr trail_k : Option ℚ) (r_mult : ℚ) : TpSl :=
  match entry, atr, trail_k with
  | some e, some a, some k =>
    if action = "BUY" then
      let sl := e - a * k
      let risk := max (e - sl) (1 / 100)
      ⟨some (e + r_mult * risk), some sl⟩
    else if action = "SELL" then
      let sl := e + a * k
      let risk := max (sl - e) (1 / 100)
      ⟨some (e - r_mult * risk), some sl⟩
    else ⟨none, none⟩
  | _, _, _ => ⟨none, none⟩

/-- `worker.process_one_by_id` (lines 343-346): `tp`/`sl` are attached to
the outgoing order payload only for BUY and only when both are present. -/
def attach_tp_sl (action : String) (t : TpSl) : Option (ℚ × ℚ) :=
  if action = "BUY" then
    match t.tp, t.sl with
    | some tp, some sl => some (tp, sl)
    | _, _ => none
  else none

/-! ## orderapi.py: SELL sizing and quantity normalization -/

/-- `orderapi.order` (lines 256-272): quantity of a SELL whose open
position holds `pos_qty`. An explicit `qty` override is used as-is; a
truthy `percentage` (present and nonzero) sells that fraction of the
position; otherwise the whole position is sold. A non-positive position
raises. -/
def order_sell_qty (pos_qty : ℚ) (qty_in percentage : Option ℚ) (symbol_trade : String) :
    PyRes ℚ :=
  if pos_qty ≤ 0 then .exn ("No open position for " ++ symbol_trade)
  else
    match qty_in with
    | some q => .ok q
    | none =>
      match percentage with
      | some p => if ¬ (p = 0) then .ok (pos_qty * p) else .ok pos_qty
      | none => .ok pos_qty

/-- Banker's rounding (round half to even), the default rounding of
Python `decimal` used by `Decimal.quantize`. -/
def roundHalfEven (x : ℚ) : ℤ :=
  let fl := ⌊x⌋
  let fr := x - (fl : ℚ)
  if fr < 1 / 2 then fl
  else if 1 / 2 < fr then fl + 1
  else if Even fl then fl else fl + 1

/-- `orderapi._clamp_crypto_qty`: replace non-positive quantities by
`0.000001`, then quantize to 6 fractional digits. -/
def clamp_crypto_qty (q : ℚ) : ℚ :=
  let q1 := if q ≤ 0 then 1 / 1000000 else q
  (roundHalfEven (q1 * 1000000) : ℚ) / 1000000

/-- `orderapi.order` (lines 301-308): quantity normalization before the
order request is built: crypto quantities are clamped/quantized, equity
quantities are raised to at least 1 share and truncated to an integer. -/
def order_final_qty (symbol_is_crypto : Bool) (q : ℚ) : ℚ :=
  if symbol_is_crypto then clamp_crypto_qty q
  else if q < 1 then 1 else (pyIntTrunc q : ℚ)

/-! ## config.py / worker.py: account state and the risk guard -/

/-- The `account_state` fields involved in invariant I5 and the
drawdown breaker. -/
structure AccountState where
  trading_enabled : Bool
  daily_dd_triggered : Bool
  pause_reason : Option String
  daily_high_watermark : Option ℚ
  deriving DecidableEq

/-- Every `update_account_state` call the program performs (worker.py
lines 145, 153 and 166 are the only call sites of
`config.update_account_state`): the high-watermark refresh and the two
breaker trips. -/
inductive AccountUpdate where
  | setHighWatermark (eq : ℚ)
  | tripDailyDd
  | tripDailyLossCap
  deriving DecidableEq

/-- `config.update_account_state` (a partial column update of the
singleton row) applied to each update the program performs. -/
def update_account_state (st : AccountState) : AccountUpdate → AccountState
  | .setHighWatermark e => { st with daily_high_watermark := some e }
  | .tripDailyDd =>
      { st with trading_enabled := false, daily_dd_triggered := true,
                pause_reason := some "daily_dd" }
  | .tripDailyLossCap =>
      { st with trading_enabled := false, daily_dd_triggered := true,
                pause_reason := some "daily_loss_cap" }

/-- Spec invariant I5: a tripped daily-drawdown flag implies trading is
disabled with `pause_reason` one of `daily_dd`/`daily_loss_cap`. -/
def I5 (st : AccountState) : Prop :=
  st.daily_dd_triggered = true →
    st.trading_enabled = false ∧
      (st.pause_reason = some "daily_dd" ∨ st.pause_reason = some "daily_loss_cap")

/-- Python `x or y` for a nullable numeric `x`: `None` and `0` are falsy. -/
def pyOrQ (x : Option ℚ) (y : ℚ) : ℚ :=
  match x with
  | none => y
  | some v => if v = 0 then y else v

/-- Inputs of the high-watermark/drawdown section of `worker.risk_guard`. -/
structure RiskState where
  trading_enabled : Bool
  daily_high_watermark : Option ℚ
  daily_dd_limit_pct : Option ℚ
  deriving DecidableEq

/-- Observable effects of `worker.risk_guard` lines 141-154. -/
structure HwmDdResult where
  hwmUsed : ℚ
  hwmWritten : Option ℚ
  ddComputed : Option ℚ
  ddTripped : Bool
  deriving DecidableEq

/-- `worker.risk_guard` (lines 141-154): substitute current equity for a
falsy high-watermark (`hwm = cfg.get(...) or eq`), write the watermark
back only when equity strictly exceeds it, and when `daily_dd_limit_pct`
is configured and the watermark positive compute the drawdown and trip
the breaker when it reaches the limit. (`float(hwm or 0)` equals `hwm`
numerically, since `hwm` is falsy only when it is `0`.) -/
def risk_guard_hwm_dd (st : RiskState) (eq : ℚ) : HwmDdResult :=
  let hwm0 := pyOrQ st.daily_high_watermark eq
  let written : Option ℚ := if hwm0 < eq then some eq else none
  let hwm1 := if hwm0 < eq then eq else hwm0
  match st.daily_dd_limit_pct with
  | none => ⟨hwm1, written, none, false⟩
  | some limit =>
    if 0 < hwm1 then
      let dd := (hwm1 - eq) / hwm1
      ⟨hwm1, written, some dd, decide (limit ≤ dd)⟩
    else ⟨hwm1, written, none, false⟩

/-! ## Library lemmas about the Python string primitives -/

theorem replaceAllFuel_fuel_irrel (pat rep : Str) :
    ∀ (f₁ f₂ : ℕ) (s : Str), s.length ≤ f₁ → s.length ≤ f₂ →
      replaceAllFuel pat rep f₁ s = replaceAllFuel pat rep f₂ s := by
  intro f₁
  induction f₁ with
  | zero =>
    intro f₂ s hs₁ _
    have hnil : s = [] := List.eq_nil_of_length_eq_zero (Nat.le_zero.mp hs₁)
    subst hnil
    cases f₂ <;> rfl
  | succ m ih =>
    intro f₂ s hs₁ hs₂
    cases s with
    | nil => cases f₂ <;> rfl
    | cons c rest =>
      cases f₂ with
      | zero => simp at hs₂
      | succ k =>
        simp only [replaceAllFuel]
        by_cases h : pat ≠ [] ∧ pat.isPrefixOf (c :: rest) = true
        · rw [if_pos h, if_pos h]
          have hle : (rest.drop (pat.length - 1)).length ≤ rest.length := by
            simp [List.length_drop]
          have h₁ : rest.length ≤ m := by simpa using Nat.le_of_succ_le_succ hs₁
          have h₂ : rest.length ≤ k := by simpa using Nat.le_of_succ_le_succ hs₂
          rw [ih _ _ (le_trans hle h₁) (le_trans hle h₂)]
        · rw [if_neg h, if_neg h]
          have h₁ : rest.length ≤ m := by simpa using Nat.le_of_succ_le_succ hs₁
          have h₂ : rest.length ≤ k := by simpa using Nat.le_of_succ_le_succ hs₂
          rw [ih _ _ h₁ h₂]

theorem pyReplace_nil (pat rep : Str) : pyReplace [] pat rep = [] := rfl

theorem pyReplace_cons_match {pat : Str} (rep : Str) {c : Char} {rest : Str}
    (hpat : pat ≠ []) (h : pat.isPrefixOf (c :: rest) = true) :
    pyReplace (c :: rest) pat rep =
      rep ++ pyReplace (rest.drop (pat.length - 1)) pat rep := by
  show replaceAllFuel pat rep (c :: rest).length (c :: rest) = _
  simp only [List.length_cons, replaceAllFuel]
  rw [if_pos ⟨hpat, h⟩]
  unfold pyReplace
  congr 1
  apply replaceAllFuel_fuel_irrel
  · simp [List.length_drop]
  · exact le_refl _

theorem pyReplace_cons_nomatch {pat : Str} (rep : Str) {c : Char} {rest : Str}
    (h : ¬ pat.isPrefixOf (c :: rest) = true) :
    pyReplace (c :: rest) pat rep = c :: pyReplace rest pat rep := by
  show replaceAllFuel pat rep (c :: rest).length (c :: rest) = _
  simp only [List.length_cons, replaceAllFuel]
  rw [if_neg (by intro hc; exact h hc.2)]
  rfl

theorem pyReplace_cons_empty_pat (rep : Str) (c : Char) (rest : Str) :
    pyReplace (c :: rest) [] rep = c :: pyReplace rest [] rep := by
  show replaceAllFuel [] rep (c :: rest).length (c :: rest) = _
  simp only [List.length_cons, replaceAllFuel]
  rw [if_neg (by simp)]
  rfl

theorem pyReplace_single_char_filter (c : Char) (s : Str) :
    pyReplace s [c] [] = s.filter (fun a => a != c) := by
  induction s with
  | nil => rfl
  | cons a rest ih =>
    by_cases h : c = a
    · subst h
      rw [pyReplace_cons_match [] (by simp) (by simp [List.isPrefixOf])]
      simpa using ih
    · have hne : ¬ [c].isPrefixOf (a :: rest) = true := by
        simp [List.isPrefixOf]
        exact fun hc => h hc
      rw [pyReplace_cons_nomatch [] hne, List.filter_cons]
      have hba : (a != c) = true := by
        simp [bne_iff_ne]
        exact fun hh => h hh.symm
      simp [hba, ih]

theorem mem_replaceAllFuel {pat rep : Str} {a : Char} :
    ∀ (f : ℕ) (s : Str), a ∈ replaceAllFuel pat rep f s → a ∈ rep ∨ a ∈ s := by
  intro f
  induction f with
  | zero =>
    intro s h
    cases s with
    | nil => simp [replaceAllFuel] at h
    | cons c rest => exact Or.inr h
  | succ m ih =>
    intro s h
    cases s with
    | nil => simp [replaceAllFuel] at h
    | cons c rest =>
      simp only [replaceAllFuel] at h
      by_cases hc : pat ≠ [] ∧ pat.isPrefixOf (c :: rest) = true
      · rw [if_pos hc] at h
        rcases List.mem_append.mp h with h1 | h2
        · exact Or.inl h1
        · rcases ih _ h2 with h3 | h4
          · exact Or.inl h3
          · exact Or.inr (List.mem_cons_of_mem c (List.mem_of_mem_drop h4))
      · rw [if_neg hc] at h
        rcases List.mem_cons.mp h with h1 | h2
        · exact Or.inr (h1 ▸ List.mem_cons_self c rest)
        · rcases ih _ h2 with h3 | h4
          · exact Or.inl h3
          · exact Or.inr (List.mem_cons_of_mem c h4)

theorem mem_pyReplace {pat rep s : Str} {a : Char} (h : a ∈ pyReplace s pat rep) :
    a ∈ rep ∨ a ∈ s :=
  mem_replaceAllFuel s.length s h

theorem pyReplace_ne_nil {pat rep : Str} (hrep : rep ≠ []) {s : Str} (hs : s ≠ []) :
    pyReplace s pat rep ≠ [] := by
  cases s with
  | nil => exact absurd rfl hs
  | cons c rest =>
    by_cases hp : pat = []
    · subst hp
      rw [pyReplace_cons_empty_pat]
      exact List.cons_ne_nil _ _
    · by_cases h : pat.isPrefixOf (c :: rest) = true
      · rw [pyReplace_cons_match rep hp h]
        simp [hrep]
      · rw [pyReplace_cons_nomatch rep h]
        exact List.cons_ne_nil _ _

theorem char_toNat_ofNat_upper_range {k : ℕ} (h1 : 65 ≤ k) (h2 : k ≤ 90) :
    (Char.ofNat k).toNat = k := by
  interval_cases k <;> decide

theorem char_toUpper_eq_slash {a : Char} (h : a.toUpper = '/') : a = '/' := by
  simp only [Char.toUpper] at h
  split at h
  · exfalso
    rename_i hc
    obtain ⟨h1, h2⟩ := hc
    have h3 : (Char.ofNat (a.toNat - 32)).toNat = a.toNat - 32 :=
      char_toNat_ofNat_upper_range (by omega) (by omega)
    rw [h] at h3
    have h4 : ('/' : Char).toNat = 47 := by decide
    omega
  · exact h

theorem mem_pyStrip {a : Char} {s : Str} (h : a ∈ pyStrip s) : a ∈ s := by
  unfold pyStrip at h
  rw [List.mem_reverse] at h
  have h2 := List.dropWhile_subset _ h
  rw [List.mem_reverse] at h2
  exact List.dropWhile_subset _ h2

theorem slash_not_mem_pyUpper {s : Str} (h : '/' ∉ s) : '/' ∉ pyUpper s := by
  intro hmem
  rcases List.mem_map.mp hmem with ⟨a, ha, hup⟩
  exact h (char_toUpper_eq_slash hup ▸ ha)

theorem pyUpper_append_usd (v : Str) :
    pyUpper (v ++ cUSD) = pyUpper v ++ cUSD := by
  unfold pyUpper
  rw [List.map_append]
  rfl

theorem pyEndsWith_iff {s suf : Str} : pyEndsWith s suf = true ↔ suf <:+ s := by
  unfold pyEndsWith
  exact List.isSuffixOf_iff_suffix

theorem pyReplace_usdt_append :
    ∀ (n : ℕ) (v : Str), v.length ≤ n →
      pyReplace (v ++ cUSD) cUSDT cUSD = pyReplace v cUSDT cUSD ++ cUSD := by
  intro n
  induction n with
  | zero =>
    intro v hv
    have hv0 : v = [] := List.eq_nil_of_length_eq_zero (Nat.le_zero.mp hv)
    subst hv0
    decide
  | succ m ih =>
    intro v hv
    match v with
    | [] => decide
    | c :: v' =>
      rw [List.cons_append]
      by_cases hpre : cUSDT.isPrefixOf (c :: (v' ++ cUSD)) = true
      · by_cases hlen : 3 ≤ v'.length
        · have hfit : cUSDT.isPrefixOf (c :: v') = true := by
            rw [ List.isPrefixOf_iff_prefix] at hpre ⊢
            rw [ List.prefix_iff_eq_take] at hpre ⊢
            rw [show c :: (v' ++ cUSD) = (c :: v') ++ cUSD from rfl] at hpre
            rw [List.take_append_of_le_length (by simp [cUSDT]; omega)] at hpre
            exact hpre
          rw [pyReplace_cons_match cUSD (by decide) hpre,
              pyReplace_cons_match cUSD (by decide) hfit]
          have hdrop : (v' ++ cUSD).drop (cUSDT.length - 1) =
              v'.drop (cUSDT.length - 1) ++ cUSD := by
            apply List.drop_append_of_le_length
            simp [cUSDT]
            omega
          rw [hdrop]
          rw [ih (v'.drop (cUSDT.length - 1)) (by
            simp only [List.length_cons] at hv
            simp [cUSDT, List.length_drop]
            omega)]
          rw [List.append_assoc]
        · exfalso
          rcases v' with _ | ⟨a, _ | ⟨b, _ | ⟨d, r⟩⟩⟩
          · simp [cUSDT, cUSD, List.isPrefixOf] at hpre
          · simp [cUSDT, cUSD, List.isPrefixOf] at hpre
          · simp [cUSDT, cUSD, List.isPrefixOf] at hpre
          · simp at hlen
      · have hfit : ¬ cUSDT.isPrefixOf (c :: v') = true := by
          intro hcon
          apply hpre
          rw [ List.isPrefixOf_iff_prefix] at hcon ⊢
          rw [show c :: (v' ++ cUSD) = (c :: v') ++ cUSD from rfl]
          exact hcon.trans ( List.prefix_append _ _)
        rw [pyReplace_cons_nomatch cUSD hpre, pyReplace_cons_nomatch cUSD hfit]
        rw [ih v' (by simpa using Nat.le_of_succ_le_succ hv)]
        rfl

/-! ## C10: symbol normalization and the data pair -/

theorem slash_not_mem_norm_crypto {raw : Str}
    (hcr : is_crypto (pyUpper (pyStrip raw)) = true) :
    '/' ∉ norm_trade_symbol raw := by
  intro hmem
  simp only [norm_trade_symbol, hcr, if_true] at hmem
  rw [pyReplace_single_char_filter] at hmem
  have h1 := (List.mem_filter.mp hmem).1
  rw [pyReplace_single_char_filter] at h1
  have h2 := (List.mem_filter.mp h1).2
  simp at h2

theorem to_crypto_pair_count_one {t : Str}
    (hslash : '/' ∉ pyUpper (pyStrip t))
    (hend : pyEndsWith (pyUpper (pyStrip t)) cUSD = true)
    (hlen : 3 < (pyUpper (pyStrip t)).length) :
    (to_crypto_pair_for_data t).count '/' = 1 := by
  unfold to_crypto_pair_for_data
  generalize hgen : pyUpper (pyStrip t) = u at hslash hend hlen ⊢
  obtain ⟨v, hv⟩ := pyEndsWith_iff.mp hend
  subst hv
  have hcr : is_crypto (v ++ cUSD) = true := by
    have hup : pyEndsWith (pyUpper (v ++ cUSD)) cUSD = true := by
      rw [pyUpper_append_usd]
      exact pyEndsWith_iff.mpr ⟨pyUpper v, rfl⟩
    simp [is_crypto, hup]
  rw [if_neg (by simp [hcr])]
  have hnc : pyContainsChar (v ++ cUSD) '/' = false := by
    simp [pyContainsChar, hslash]
  rw [if_neg (by simp [hnc])]
  have hbase : pyReplace (v ++ cUSD) cUSDT cUSD = pyReplace v cUSDT cUSD ++ cUSD :=
    pyReplace_usdt_append v.length v (le_refl _)
  rw [hbase]
  have hvne : v ≠ [] := by
    intro hveq
    subst hveq
    simp [cUSD] at hlen
  have hrne : pyReplace v cUSDT cUSD ≠ [] :=
    pyReplace_ne_nil (by simp [cUSD]) hvne
  have hend2 : pyEndsWith (pyReplace v cUSDT cUSD ++ cUSD) cUSD = true :=
    pyEndsWith_iff.mpr ⟨pyReplace v cUSDT cUSD, rfl⟩
  have hlen2 : 3 < (pyReplace v cUSDT cUSD ++ cUSD).length := by
    simp [cUSD]
    exact List.length_pos.mpr hrne
  rw [if_pos ⟨hend2, hlen2⟩]
  have hsb : '/' ∉ pyReplace v cUSDT cUSD ++ cUSD := by
    intro hm
    rw [← hbase] at hm
    rcases mem_pyReplace hm with h1 | h2
    · simp [cUSD] at h1
    · exact hslash h2
  have htake : '/' ∉ (pyReplace v cUSDT cUSD ++ cUSD).take
      ((pyReplace v cUSDT cUSD ++ cUSD).length - 3) := by
    intro hm
    exact hsb (List.take_subset _ _ hm)
  rw [List.count_append]
  rw [List.count_eq_zero_of_not_mem htake]
  decide

/-- C10: corrected. The original claim quantifies over every symbol that
`_is_crypto` classifies as crypto; it fails for some of them, e.g. the
symbol `"USD"` (see the counterexample). Amended claim: for every symbol
`s` taking the crypto branch of `_norm_trade_symbol`, if the normalized
symbol — as re-normalized by `_to_crypto_pair_for_data`'s own strip/upper
— still ends in `USD` and is longer than 3 characters, then
`_to_crypto_pair_for_data(_norm_trade_symbol(s))` contains exactly one
`/`. -/
theorem norm_then_pair_one_slash (raw : Str)
    (hcr : is_crypto (pyUpper (pyStrip raw)) = true)
    (hend : pyEndsWith (pyUpper (pyStrip (norm_trade_symbol raw))) cUSD = true)
    (hlen : 3 < (pyUpper (pyStrip (norm_trade_symbol raw))).length) :
    (to_crypto_pair_for_data (norm_trade_symbol raw)).count '/' = 1 := by
  apply to_crypto_pair_count_one
  · apply slash_not_mem_pyUpper
    intro hmem
    exact slash_not_mem_norm_crypto hcr (mem_pyStrip hmem)
  · exact hend
  · exact hlen

/-- C10 counterexample: the symbol `"USD"` is classified as crypto
(`_is_crypto` is true for it), yet
`_to_crypto_pair_for_data(_norm_trade_symbol("USD"))` is `"USD"`, which
contains no `/` at all — refuting `exactly one /` as claimed. -/
theorem norm_then_pair_usd_counterexample :
    is_crypto "USD".toList = true ∧
      (to_crypto_pair_for_data (norm_trade_symbol "USD".toList)).count '/' = 0 := by
  decide

/-- C10 witness: the amended theorem applied to the concrete symbol
`"ETHUSDT"`, whose normalized form `"ETHUSD"` converts to `"ETH/USD"`. -/
theorem norm_then_pair_one_slash_witness :
    (is_crypto (pyUpper (pyStrip "ETHUSDT".toList)) = true ∧
      pyEndsWith (pyUpper (pyStrip (norm_trade_symbol "ETHUSDT".toList))) cUSD = true ∧
      3 < (pyUpper (pyStrip (norm_trade_symbol "ETHUSDT".toList))).length) ∧
    (to_crypto_pair_for_data (norm_trade_symbol "ETHUSDT".toList)).count '/' = 1 :=
  ⟨⟨by decide, by decide, by decide⟩,
    norm_then_pair_one_slash _ (by decide) (by decide) (by decide)⟩

/-! ## C9: bar-time coercion -/

/-- C9: confirmed. Numeric bar times map to `int(v)` when `v ≥ 1e11`, to
`int(v*1000)` when `1e9 ≤ v < 1e11`, and to `int(v)` otherwise; a
timezone-naive ISO string is read as UTC and converted to epoch
milliseconds; an unparseable bar time raises, and the ingress handler
turns that into an HTTP 400 response. -/
theorem coerce_bar_time_ms_spec (v wall : ℚ) (r : V2Request) (db dbIns : IngressDB) :
    (100000000000 ≤ v → coerce_bar_time_ms (.num v) = .ok (pyIntTrunc v)) ∧
    (1000000000 ≤ v → v < 100000000000 →
      coerce_bar_time_ms (.num v) = .ok (pyIntTrunc (v * 1000))) ∧
    (v < 1000000000 → coerce_bar_time_ms (.num v) = .ok (pyIntTrunc v)) ∧
    coerce_bar_time_ms (.strIso (.noTz wall)) = .ok (pyIntTrunc (wall * 1000)) ∧
    coerce_bar_time_ms .strBad = .exn "invalid ISO bar_time" ∧
    (r.jsonOk = true → r.passphraseOk = true → r.headerOk = true →
      r.hasStrategy = true → r.hasTicker = true → r.hasTimeframe = true →
      r.hasAction = true → r.hasBarTime = true → r.barTime = .strBad →
      (tv_webhook_v2 r db dbIns).httpCode = 400 ∧
        (tv_webhook_v2 r db dbIns).status = .invalidBarTime) := by
  refine ⟨?_, ?_, ?_, ?_, ?_, ?_⟩
  · intro h
    simp [coerce_bar_time_ms, coerce_num_ms, if_pos h]
  · intro h1 h2
    simp [coerce_bar_time_ms, coerce_num_ms, if_neg (not_le.mpr h2), if_pos h1]
  · intro h
    have hv : v < 100000000000 := lt_trans h (by norm_num)
    simp [coerce_bar_time_ms, coerce_num_ms, if_neg (not_le.mpr h), if_neg (not_le.mpr hv)]
  · simp [coerce_bar_time_ms, iso_timestamp_sec]
  · rfl
  · intro hj hp hh hs ht htf ha hb hbt
    simp [tv_webhook_v2, hj, hp, hh, hs, ht, htf, ha, hb, hbt, coerce_bar_time_ms]

/-- C9 witness: the three numeric branches at `1727357550000` (ms),
`1727357550` (s) and `300` (raw ms), the ISO branch at wall time
`1727357550`, and a concrete rejected request. -/
theorem coerce_bar_time_ms_spec_witness :
    ((100000000000 : ℚ) ≤ 1727357550000 ∧
      coerce_bar_time_ms (.num 1727357550000) = .ok (pyIntTrunc 1727357550000)) ∧
    ((1000000000 : ℚ) ≤ 1727357550 ∧ (1727357550 : ℚ) < 100000000000 ∧
      coerce_bar_time_ms (.num 1727357550) = .ok (pyIntTrunc ((1727357550 : ℚ) * 1000))) ∧
    ((300 : ℚ) < 1000000000 ∧ coerce_bar_time_ms (.num 300) = .ok (pyIntTrunc 300)) ∧
    (tv_webhook_v2 ⟨true, true, true, true, true, true, true, true,
        "momo", "AAPL", "5", "buy", .strBad⟩ ⟨[], 0, true, true⟩
        ⟨[], 0, true, true⟩).httpCode = 400 :=
  ⟨⟨by decide,
      (coerce_bar_time_ms_spec 1727357550000 0 ⟨true, true, true, true, true, true, true,
        true, "momo", "AAPL", "5", "buy", .strBad⟩ ⟨[], 0, true, true⟩
        ⟨[], 0, true, true⟩).1 (by decide)⟩,
    ⟨by decide, by decide,
      ((coerce_bar_time_ms_spec 1727357550 0 ⟨true, true, true, true, true, true, true,
        true, "momo", "AAPL", "5", "buy", .strBad⟩ ⟨[], 0, true, true⟩
        ⟨[], 0, true, true⟩).2).1 (by decide) (by decide)⟩,
    ⟨by decide,
      ((coerce_bar_time_ms_spec 300 0 ⟨true, true, true, true, true, true, true,
        true, "momo", "AAPL", "5", "buy", .strBad⟩ ⟨[], 0, true, true⟩
        ⟨[], 0, true, true⟩).2).2.1 (by decide)⟩,
    (((((coerce_bar_time_ms_spec 300 0 ⟨true, true, true, true, true, true, true,
        true, "momo", "AAPL", "5", "buy", .strBad⟩ ⟨[], 0, true, true⟩
        ⟨[], 0, true, true⟩).2).2).2).2.2 rfl rfl rfl rfl rfl rfl rfl rfl rfl).1⟩

/-! ## C1: ingress dedup -/

/-- C1: corrected. For a validated request whose dedup key already exists
at check time the handler returns HTTP 200 `dup_ignored` and writes
nothing. However, when the key is absent at check time but the atomic
insert hits the uniqueness constraint (a concurrent duplicate), the
exception is NOT caught: the response is an HTTP 500 error, not
`dup_ignored`. In both cases no new `signals_raw` row and no `order_queue`
row is created, and when the key is fresh exactly one `signals_raw` row
and at most one `order_queue` row are created — so for any two ingress
calls with identical dedup key, at most one `signals_raw` row and at most
one `order_queue` row are created. -/
theorem tv_webhook_v2_dedup (r : V2Request) (db dbIns : IngressDB) (ms : ℤ) (key : String)
    (hj : r.jsonOk = true) (hp : r.passphraseOk = true) (hh : r.headerOk = true)
    (hs : r.hasStrategy = true) (ht : r.hasTicker = true) (htf : r.hasTimeframe = true)
    (ha : r.hasAction = true) (hb : r.hasBarTime = true)
    (hms : coerce_bar_time_ms r.barTime = .ok ms)
    (hkey : key = dedup_key r.strategy r.ticker r.timeframe ms (strUpper r.action)) :
    (key ∈ db.signalKeys → tv_webhook_v2 r db dbIns = ⟨.dupIgnored, 200, db⟩) ∧
    (key ∉ db.signalKeys → key ∈ dbIns.signalKeys →
      tv_webhook_v2 r db dbIns = ⟨.uncaughtError, 500, dbIns⟩) ∧
    (key ∉ db.signalKeys → key ∉ dbIns.signalKeys →
      (tv_webhook_v2 r db dbIns).db.signalKeys = key :: dbIns.signalKeys ∧
        (tv_webhook_v2 r db dbIns).db.queueCount ≤ dbIns.queueCount + 1) := by
  subst hkey
  refine ⟨?_, ?_, ?_⟩
  · intro hin
    simp [tv_webhook_v2, hj, hp, hh, hs, ht, htf, ha, hb, hms, hin]
  · intro hout hin
    simp [tv_webhook_v2, hj, hp, hh, hs, ht, htf, ha, hb, hms, hout, hin]
  · intro hout1 hout2
    by_cases hte : dbIns.tradingEnabled = true
    · by_cases hsa : dbIns.strategyActive = true
      · simp [tv_webhook_v2, hj, hp, hh, hs, ht, htf, ha, hb, hms, hout1, hout2, hte, hsa]
      · simp [tv_webhook_v2, hj, hp, hh, hs, ht, htf, ha, hb, hms, hout1, hout2, hte, hsa]
    · simp [tv_webhook_v2, hj, hp, hh, hs, ht, htf, ha, hb, hms, hout1, hout2, hte]

/-- C1 counterexample: a request whose dedup key is absent at the
pre-check but present when the raw-signal insert runs (the concurrent
duplicate the spec's `uniqueness violation is also dup_ignored` sentence
is about). The handler result is an uncaught exception with HTTP 500 —
not a 200 `dup_ignored` response. -/
theorem tv_webhook_v2_insert_race_counterexample :
    (tv_webhook_v2
        ⟨true, true, true, true, true, true, true, true,
          "momo", "AAPL", "5", "buy", .num 1727357550000⟩
        ⟨[], 0, true, true⟩
        ⟨["momo|AAPL|5|1727357550000|BUY"], 0, true, true⟩).status = .uncaughtError ∧
    (tv_webhook_v2
        ⟨true, true, true, true, true, true, true, true,
          "momo", "AAPL", "5", "buy", .num 1727357550000⟩
        ⟨[], 0, true, true⟩
        ⟨["momo|AAPL|5|1727357550000|BUY"], 0, true, true⟩).httpCode = 500 ∧
    ¬ ((tv_webhook_v2
        ⟨true, true, true, true, true, true, true, true,
          "momo", "AAPL", "5", "buy", .num 1727357550000⟩
        ⟨[], 0, true, true⟩
        ⟨["momo|AAPL|5|1727357550000|BUY"], 0, true, true⟩).status = .dupIgnored) := by
  decide

/-- C1 witness: the amended theorem applied at a concrete duplicate
request (key already present at check time) and at a concrete fresh
request. -/
theorem tv_webhook_v2_dedup_witness :
    ("momo|AAPL|5|1727357550000|BUY" ∈
        (IngressDB.mk ["momo|AAPL|5|1727357550000|BUY"] 1 true true).signalKeys ∧
      tv_webhook_v2
        ⟨true, true, true, true, true, true, true, true,
          "momo", "AAPL", "5", "buy", .num 1727357550000⟩
        ⟨["momo|AAPL|5|1727357550000|BUY"], 1, true, true⟩
        ⟨["momo|AAPL|5|1727357550000|BUY"], 1, true, true⟩ =
        ⟨.dupIgnored, 200, ⟨["momo|AAPL|5|1727357550000|BUY"], 1, true, true⟩⟩) ∧
    ((tv_webhook_v2
        ⟨true, true, true, true, true, true, true, true,
          "momo", "AAPL", "5", "buy", .num 1727357550000⟩
        ⟨[], 0, true, true⟩ ⟨[], 0, true, true⟩).db.signalKeys =
        "momo|AAPL|5|1727357550000|BUY" :: [] ∧
      (tv_webhook_v2
        ⟨true, true, true, true, true, true, true, true,
          "momo", "AAPL", "5", "buy", .num 1727357550000⟩
        ⟨[], 0, true, true⟩ ⟨[], 0, true, true⟩).db.queueCount ≤ 0 + 1) :=
  ⟨⟨by decide,
      (tv_webhook_v2_dedup
        ⟨true, true, true, true, true, true, true, true,
          "momo", "AAPL", "5", "buy", .num 1727357550000⟩
        ⟨["momo|AAPL|5|1727357550000|BUY"], 1, true, true⟩
        ⟨["momo|AAPL|5|1727357550000|BUY"], 1, true, true⟩
        1727357550000 "momo|AAPL|5|1727357550000|BUY"
        rfl rfl rfl rfl rfl rfl rfl rfl (by decide) (by decide)).1 (by decide)⟩,
    (tv_webhook_v2_dedup
        ⟨true, true, true, true, true, true, true, true,
          "momo", "AAPL", "5", "buy", .num 1727357550000⟩
        ⟨[], 0, true, true⟩ ⟨[], 0, true, true⟩
        1727357550000 "momo|AAPL|5|1727357550000|BUY"
        rfl rfl rfl rfl rfl rfl rfl rfl (by decide) (by decide)).2.2
      (by decide) (by decide)⟩

/-! ## C2: retry with backoff, bounded by the DLQ -/

theorem WInv_step (now : ℤ) (st : WorkerSt) (o : AttemptOutcome) (h : WInv st) :
    WInv (process_one_step now st o) := by
  obtain ⟨h1, h2, h3, h4⟩ := h
  unfold process_one_step
  by_cases hs : st.job.status = .ready
  · rw [if_neg (by simp [hs])]
    by_cases hn : naa_in_future now st.job.next_attempt_at = true
    · rw [if_pos hn]
      exact ⟨h1, h2, h3, h4⟩
    · rw [if_neg hn]
      have h5 := h3 hs
      have h6 : st.attempts + 1 ≤ 4 := by omega
      cases o with
      | orderOk =>
        exact ⟨h6, h2, by intro hc; simp at hc, by simp⟩
      | riskBlocked m =>
        exact ⟨h6, h2, by intro hc; simp at hc, by simp⟩
      | exc m =>
        simp only [process_one_failure]
        by_cases hmc : pyInStr "market_closed" m = true
        · rw [if_pos hmc]
          exact ⟨h6, h2, by intro hc; simp at hc, by simp⟩
        · rw [if_neg hmc]
          by_cases hrc : st.job.retry_count + 1 ≤ 3
          · rw [if_pos hrc]
            refine ⟨h6, by simp; omega, ?_, by simp⟩
            intro _
            simp
            omega
          · rw [if_neg hrc]
            exact ⟨h6, by simp [h2], by intro hc; simp at hc, by simp⟩
  · rw [if_pos hs]
    exact ⟨h1, h2, h3, h4⟩

theorem WInv_run (trace : List (ℤ × AttemptOutcome)) :
    ∀ (st : WorkerSt), WInv st → WInv (worker_run st trace) := by
  induction trace with
  | nil => intro st h; exact h
  | cons p rest ih =>
    intro st h
    exact ih _ (WInv_step p.1 st p.2 h)

/-- C2: confirmed. A transient failure (any exception whose message does
not contain `market_closed`) increments `retry_count`; while the new
count is at most 3 the job is re-readied with `next_attempt_at = now +
30s`, otherwise the row is copied to the DLQ and the job is failed.
Consequently a freshly enqueued job starts at most 4 processing attempts
(hence at most 4 broker submissions) over any sequence of worker
invocations, and whenever it is not yet `done`/`failed` it is `ready`
with `retry_count ≤ 3` — after at most 4 effective attempts it is in a
terminal state. -/
theorem worker_retry_spec (now : ℤ) (j : QJob) (msg : String) (dlq : ℕ)
    (trace : List (ℤ × AttemptOutcome))
    (hmc : pyInStr "market_closed" msg = false) :
    (j.retry_count + 1 ≤ 3 →
      process_one_failure now j msg dlq =
        ({ j with
            status := .ready
            retry_count := j.retry_count + 1
            last_error := some msg
            next_attempt_at := some (now + 30) }, dlq)) ∧
    (3 < j.retry_count + 1 →
      process_one_failure now j msg dlq =
        ({ j with status := .failed, reason := some msg }, dlq + 1)) ∧
    (worker_run initWorkerSt trace).attempts ≤ 4 ∧
    ((worker_run initWorkerSt trace).job.status = .done ∨
      (worker_run initWorkerSt trace).job.status = .failed ∨
      ((worker_run initWorkerSt trace).job.status = .ready ∧
        (worker_run initWorkerSt trace).job.retry_count ≤ 3)) := by
  have hinv : WInv (worker_run initWorkerSt trace) := by
    apply WInv_run
    refine ⟨?_, ?_, ?_, ?_⟩ <;> simp [initWorkerSt, job0]
  obtain ⟨h1, h2, h3, h4⟩ := hinv
  refine ⟨?_, ?_, h1, ?_⟩
  · intro hrc
    simp only [process_one_failure]
    rw [if_neg (by simp [hmc]), if_pos hrc]
  · intro hrc
    simp only [process_one_failure]
    rw [if_neg (by simp [hmc]), if_neg (by omega)]
  · rcases hst : (worker_run initWorkerSt trace).job.status with _ | _ | _ | _
    · exact Or.inr (Or.inr ⟨rfl, h2⟩)
    · exact absurd hst h4
    · exact Or.inl rfl
    · exact Or.inr (Or.inl rfl)

/-- C2 witness: a first transient failure at time 0 re-readies the fresh
job with `retry_count = 1` and a 30-second backoff, and the attempt bound
holds on a concrete trace. -/
theorem worker_retry_spec_witness :
    pyInStr "market_closed" "connection reset" = false ∧
    job0.retry_count + 1 ≤ 3 ∧
    process_one_failure 0 job0 "connection reset" 0 =
      ({ job0 with
          status := .ready
          retry_count := job0.retry_count + 1
          last_error := some "connection reset"
          next_attempt_at := some (0 + 30) }, 0) ∧
    (worker_run initWorkerSt [(0, .exc "connection reset")]).attempts ≤ 4 :=
  ⟨by decide, by decide,
    (worker_retry_spec 0 job0 "connection reset" 0 [(0, .exc "connection reset")]
      (by decide)).1 (by decide),
    (worker_retry_spec 0 job0 "connection reset" 0 [(0, .exc "connection reset")]
      (by decide)).2.2.1⟩

/-! ## C4: sizer failures and the retry path -/

/-- C4 counterexample: a job whose `order` call fails with the sizer error
`Not holding ...` (a SELL with no open position). `process_one_by_id` does
NOT mark it failed: the error message does not contain `market_closed`, so
the job is re-readied with `retry_count = 1` and will be submitted again —
contradicting `marked failed immediately with no retry`. -/
theorem sizer_fatal_counterexample :
    (process_one_step 0 initWorkerSt
        (.exc (order_failure_result "Not holding ETHUSD: position does not exist").message)
      ).job.status = .ready ∧
    (process_one_step 0 initWorkerSt
        (.exc (order_failure_result "Not holding ETHUSD: position does not exist").message)
      ).job.retry_count = 1 ∧
    ¬ ((process_one_step 0 initWorkerSt
        (.exc (order_failure_result "Not holding ETHUSD: position does not exist").message)
      ).job.status = .failed) := by
  decide

/-- C4: corrected. `not_holding` and `no_price_data` sizing failures are
NOT fatal: `order` returns `success=False` with message `Error: ...`, the
worker re-raises it, and — since the message does not contain
`market_closed` — the generic retry path runs: `retry_count` is
incremented and the job re-readied with a 30s backoff while the new count
is at most 3 (so the broker submission is re-attempted), and only after
more than 3 retries is the row dead-lettered and failed. -/
theorem sizer_failure_retried (now : ℤ) (st : WorkerSt) (sym ge : String)
    (hready : st.job.status = .ready)
    (hnaa : naa_in_future now st.job.next_attempt_at = false)
    (hm1 : pyInStr "market_closed"
        (order_failure_result ("Not holding " ++ sym ++ ": " ++ ge)).message = false) :
    (st.job.retry_count + 1 ≤ 3 →
      (process_one_step now st (.exc (order_failure_result
          ("Not holding " ++ sym ++ ": " ++ ge)).message)).job.status = .ready ∧
      (process_one_step now st (.exc (order_failure_result
          ("Not holding " ++ sym ++ ": " ++ ge)).message)).job.retry_count =
        st.job.retry_count + 1 ∧
      (process_one_step now st (.exc (order_failure_result
          ("Not holding " ++ sym ++ ": " ++ ge)).message)).job.next_attempt_at =
        some (now + 30)) ∧
    (3 < st.job.retry_count + 1 →
      (process_one_step now st (.exc (order_failure_result
          ("Not holding " ++ sym ++ ": " ++ ge)).message)).job.status = .failed ∧
      (process_one_step now st (.exc (order_failure_result
          ("Not holding " ++ sym ++ ": " ++ ge)).message)).dlqCount = st.dlqCount + 1) ∧
    (st.job.retry_count + 1 ≤ 3 →
      (process_one_step now st
          (.exc (order_failure_result "No price data").message)).job.status = .ready) := by
  have hm2 : pyInStr "market_closed" (order_failure_result "No price data").message = false := by
    decide
  refine ⟨?_, ?_, ?_⟩
  · intro hrc
    simp only [process_one_step]
    rw [if_neg (by simp [hready]), if_neg (by simp [hnaa])]
    simp only [process_one_failure]
    rw [if_neg (by simp [hm1]), if_pos hrc]
    simp
  · intro hrc
    simp only [process_one_step]
    rw [if_neg (by simp [hready]), if_neg (by simp [hnaa])]
    simp only [process_one_failure]
    rw [if_neg (by simp [hm1]), if_neg (by omega)]
    simp
  · intro hrc
    simp only [process_one_step]
    rw [if_neg (by simp [hready]), if_neg (by simp [hnaa])]
    simp only [process_one_failure]
    rw [if_neg (by simp [hm2]), if_pos hrc]

/-- C4 witness: the amended theorem applied to a fresh job failing with
`Not holding ETHUSD: ...` at time 0. -/
theorem sizer_failure_retried_witness :
    (initWorkerSt.job.status = .ready ∧
      naa_in_future 0 initWorkerSt.job.next_attempt_at = false ∧
      pyInStr "market_closed" (order_failure_result
        ("Not holding " ++ "ETHUSD" ++ ": " ++ "position does not exist")).message = false ∧
      initWorkerSt.job.retry_count + 1 ≤ 3) ∧
    (process_one_step 0 initWorkerSt (.exc (order_failure_result
        ("Not holding " ++ "ETHUSD" ++ ": " ++ "position does not exist")).message)
      ).job.status = .ready :=
  ⟨⟨rfl, by decide, by decide, by decide⟩,
    ((sizer_failure_retried 0 initWorkerSt "ETHUSD" "position does not exist"
      rfl (by decide) (by decide)).1 (by decide)).1⟩

/-! ## C3: idempotent client order id and already_exists handling -/

/-- C3 counterexample: a broker rejection for a duplicate client order id
is NOT classified as success. `orderapi.order` catches the exception and
returns `success=False`, and the worker then takes the generic failure
path: the fresh job goes back to `ready` for a retry rather than to
`done`. -/
theorem already_exists_not_success_counterexample :
    (order_submit_result "MARKET" "1" "AAPL"
        (.rejectedAlreadyExists "client order id already exists")).success = false ∧
    ¬ ((process_one_step 0 initWorkerSt
        (.exc (order_submit_result "MARKET" "1" "AAPL"
          (.rejectedAlreadyExists "client order id already exists")).message)
      ).job.status = .done) := by
  decide

/-- C3: corrected. The `client_order_id` attached to the submission is the
deterministic string `"q_" + queue_id.replace("-", "")` truncated to 30
characters (a pure function of the job id, so the same id always yields
the same value, and it never exceeds 30 characters). However, a broker
`already_exists` rejection on submit is NOT classified as success:
`order` returns `success=False` with an `Error: ...` message and the
worker re-raises it into the generic retry path, so the job is re-readied
(not marked `done`). -/
theorem client_order_id_spec (qid : Str) (now : ℤ) (st : WorkerSt)
    (kind qty_str sym emsg : String)
    (hready : st.job.status = .ready)
    (hnaa : naa_in_future now st.job.next_attempt_at = false)
    (hrc : st.job.retry_count + 1 ≤ 3)
    (hmc : pyInStr "market_closed" ("Error: " ++ emsg) = false) :
    client_order_id qid = ('q' :: '_' :: qid.filter (fun c => c != '-')).take 30 ∧
    (client_order_id qid).length ≤ 30 ∧
    (order_submit_result kind qty_str sym (.rejectedAlreadyExists emsg)).success = false ∧
    (process_one_step now st
        (.exc (order_submit_result kind qty_str sym
          (.rejectedAlreadyExists emsg)).message)).job.status = .ready := by
  refine ⟨?_, ?_, rfl, ?_⟩
  · unfold client_order_id
    rw [pyReplace_single_char_filter]
    rfl
  · unfold client_order_id
    simp [List.length_take]
  · simp only [process_one_step]
    rw [if_neg (by simp [hready]), if_neg (by simp [hnaa])]
    simp only [order_submit_result, process_one_failure]
    rw [if_neg (by simp [hmc]), if_pos hrc]

/-- C3 witness: the amended theorem at a concrete dashed job id and a
concrete duplicate-id rejection on a fresh job. -/
theorem client_order_id_spec_witness :
    (initWorkerSt.job.status = .ready ∧
      naa_in_future 0 initWorkerSt.job.next_attempt_at = false ∧
      initWorkerSt.job.retry_count + 1 ≤ 3 ∧
      pyInStr "market_closed" ("Error: " ++ "client order id already exists") = false) ∧
    client_order_id "123e4567-e89b-42d3-a456-556642440000".toList =
      ('q' :: '_' :: "123e4567-e89b-42d3-a456-556642440000".toList.filter
        (fun c => c != '-')).take 30 ∧
    (process_one_step 0 initWorkerSt
        (.exc (order_submit_result "MARKET" "1" "AAPL"
          (.rejectedAlreadyExists "client order id already exists")).message)
      ).job.status = .ready :=
  ⟨⟨rfl, by decide, by decide, by decide⟩,
    (client_order_id_spec "123e4567-e89b-42d3-a456-556642440000".toList 0 initWorkerSt
      "MARKET" "1" "AAPL" "client order id already exists"
      rfl (by decide) (by decide) (by decide)).1,
    (client_order_id_spec "123e4567-e89b-42d3-a456-556642440000".toList 0 initWorkerSt
      "MARKET" "1" "AAPL" "client order id already exists"
      rfl (by decide) (by decide) (by decide)).2.2.2⟩

/-! ## C7: bracket computation and attachment -/

/-- C7: confirmed. For a BUY with `price`, `atr` and `trail_atr_mult` all
present, the attached bracket is `sl = entry − atr × trail_mult`,
`risk = max(entry − sl, 0.01)`, `tp = entry + r_mult × risk`, with
`r_multiple_tp` defaulting to 2.0 when absent (`safe_float_d none 2 = 2`);
for a SELL, no tp/sl pair is ever attached to the outgoing payload. -/
theorem tp_sl_attach_spec (e a k : ℚ) (rm : Option ℚ) (t : TpSl) :
    attach_tp_sl "BUY" (compute_tp_sl "BUY" (some e) (some a) (some k) (safe_float_d rm 2)) =
      some (e + safe_float_d rm 2 * max (e - (e - a * k)) (1 / 100), e - a * k) ∧
    safe_float_d none (2 : ℚ) = 2 ∧
    attach_tp_sl "SELL" t = none := by
  refine ⟨?_, rfl, ?_⟩
  · simp [attach_tp_sl, compute_tp_sl]
  · simp [attach_tp_sl]

/-! ## C5: invariant I5 of the account state -/

theorem I5_step (st : AccountState) (u : AccountUpdate) (h : I5 st) :
    I5 (update_account_state st u) := by
  cases u with
  | setHighWatermark e =>
    intro hdd
    simp only [update_account_state] at hdd ⊢
    exact h hdd
  | tripDailyDd =>
    intro _
    simp [update_account_state]
  | tripDailyLossCap =>
    intro _
    simp [update_account_state]

/-- C5: confirmed. Each of the three `update_account_state` calls the
program performs preserves I5; every update that sets
`daily_dd_triggered=true` (the two breaker trips) also sets
`trading_enabled=false` and `pause_reason` to `daily_dd` or
`daily_loss_cap` in the same update; hence every account state reachable
from an I5 state through program updates satisfies I5. -/
theorem I5_preserved (st init : AccountState) (u : AccountUpdate)
    (updates : List AccountUpdate) (h : I5 st) (hinit : I5 init) :
    I5 (update_account_state st u) ∧
    ((update_account_state st u).daily_dd_triggered = true →
      st.daily_dd_triggered = true ∨
        ((update_account_state st u).trading_enabled = false ∧
          ((update_account_state st u).pause_reason = some "daily_dd" ∨
            (update_account_state st u).pause_reason = some "daily_loss_cap"))) ∧
    I5 (updates.foldl update_account_state init) := by
  refine ⟨I5_step st u h, ?_, ?_⟩
  · cases u with
    | setHighWatermark e =>
      intro hdd
      simp only [update_account_state] at hdd
      exact Or.inl hdd
    | tripDailyDd =>
      intro _
      exact Or.inr (by simp [update_account_state])
    | tripDailyLossCap =>
      intro _
      exact Or.inr (by simp [update_account_state])
  · induction updates generalizing init with
    | nil => exact hinit
    | cons v rest ih =>
      simp only [List.foldl_cons]
      exact ih _ (I5_step init v hinit)

/-- C5 witness: I5 holds of the default account state (breaker untripped)
and is preserved by a concrete breaker trip and by a concrete update
sequence. -/
theorem I5_preserved_witness :
    I5 ⟨true, false, none, none⟩ ∧
    I5 (update_account_state ⟨true, false, none, none⟩ .tripDailyDd) ∧
    I5 ([AccountUpdate.setHighWatermark 10000, .tripDailyLossCap].foldl
        update_account_state ⟨true, false, none, none⟩) :=
  ⟨by intro h; simp at h,
    (I5_preserved ⟨true, false, none, none⟩ ⟨true, false, none, none⟩ .tripDailyDd
      [AccountUpdate.setHighWatermark 10000, .tripDailyLossCap]
      (by intro h; simp at h) (by intro h; simp at h)).1,
    (I5_preserved ⟨true, false, none, none⟩ ⟨true, false, none, none⟩ .tripDailyDd
      [AccountUpdate.setHighWatermark 10000, .tripDailyLossCap]
      (by intro h; simp at h) (by intro h; simp at h)).2.2⟩

/-! ## C6: risk guard with an unset high-watermark -/

/-- C6 counterexample: with `daily_high_watermark` unset the claim says
the daily-drawdown breaker cannot trip; but with a configured
`daily_dd_limit_pct` of `0` the computed drawdown `0` already reaches the
limit and the breaker trips at equity 100 with no watermark seeded. -/
theorem risk_guard_zero_limit_counterexample :
    (⟨true, none, some 0⟩ : RiskState).daily_high_watermark = none ∧
    (risk_guard_hwm_dd ⟨true, none, some 0⟩ 100).ddTripped = true := by
  refine ⟨rfl, ?_⟩
  norm_num [risk_guard_hwm_dd, pyOrQ]

/-- C6: corrected. When the loaded `daily_high_watermark` is NULL or 0,
`risk_guard` substitutes the current equity for it, so `equity > hwm` is
never true, no watermark is written back, and the computed drawdown —
when computed at all — is 0. The breaker therefore cannot trip as long as
the configured `daily_dd_limit_pct` is positive; a zero (or negative)
configured limit trips immediately, since `dd = 0 ≥ limit` (see the
counterexample). -/
theorem risk_guard_unset_hwm (st : RiskState) (eq : ℚ)
    (hun : st.daily_high_watermark = none ∨ st.daily_high_watermark = some 0) :
    (risk_guard_hwm_dd st eq).hwmUsed = eq ∧
    (risk_guard_hwm_dd st eq).hwmWritten = none ∧
    ((risk_guard_hwm_dd st eq).ddComputed = none ∨
      (risk_guard_hwm_dd st eq).ddComputed = some 0) ∧
    (st.daily_dd_limit_pct = none → (risk_guard_hwm_dd st eq).ddTripped = false) ∧
    (∀ l, st.daily_dd_limit_pct = some l → 0 < l →
      (risk_guard_hwm_dd st eq).ddTripped = false) := by
  have h0 : pyOrQ st.daily_high_watermark eq = eq := by
    rcases hun with h | h <;> simp [pyOrQ, h]
  have hlt : ¬ (eq < eq) := lt_irrefl eq
  have hdd0 : (eq - eq) / eq = 0 := by rw [sub_self, zero_div]
  simp only [risk_guard_hwm_dd, h0, if_neg hlt]
  rcases hdd : st.daily_dd_limit_pct with _ | l
  · simp [hdd]
  · simp only [hdd]
    by_cases hpos : 0 < eq
    · rw [if_pos hpos]
      refine ⟨rfl, rfl, Or.inr (by simp [hdd0]), ?_, ?_⟩
      · intro hc
        exact absurd hc (by simp)
      · intro l' hl' hl'pos
        have hll : l' = l := (Option.some_inj.mp hl').symm
        subst hll
        simp only [hdd0]
        exact decide_eq_false (not_le.mpr hl'pos)
    · rw [if_neg hpos]
      exact ⟨rfl, rfl, Or.inl rfl, fun _ => rfl, fun l' _ _ => rfl⟩

/-- C6 witness: the amended theorem at an unset watermark, equity 100 and
a positive configured limit of 1. -/
theorem risk_guard_unset_hwm_witness :
    ((⟨true, none, some 1⟩ : RiskState).daily_high_watermark = none ∨
      (⟨true, none, some 1⟩ : RiskState).daily_high_watermark = some 0) ∧
    (0 : ℚ) < 1 ∧
    (risk_guard_hwm_dd ⟨true, none, some 1⟩ 100).hwmWritten = none ∧
    (risk_guard_hwm_dd ⟨true, none, some 1⟩ 100).ddTripped = false :=
  ⟨Or.inl rfl, by norm_num,
    (risk_guard_unset_hwm ⟨true, none, some 1⟩ 100 (Or.inl rfl)).2.1,
    (risk_guard_unset_hwm ⟨true, none, some 1⟩ 100 (Or.inl rfl)).2.2.2.2 1 rfl
      (by norm_num)⟩

/-! ## C8: SELL quantity and the qty override -/

/-- C8 counterexample: a SELL with 5 shares held and an explicit override
of 10 submits quantity 10 — the override is used as-is, it is NOT clamped
to the held quantity, and the submitted SELL quantity exceeds the
position size. -/
theorem sell_qty_unclamped_counterexample :
    order_sell_qty 5 (some 10) none "SPY" = .ok 10 ∧
    order_final_qty false 10 = 10 ∧
    ¬ ((10 : ℚ) ≤ 5) := by
  have h10 : pyIntTrunc 10 = 10 := by decide
  refine ⟨?_, ?_, by norm_num⟩
  · norm_num [order_sell_qty]
  · norm_num [order_final_qty, h10]

/-- C8: corrected. For a SELL with a positive held quantity: an explicit
`qty` override is used exactly as given — NOT clamped to the held
quantity, so the submitted SELL quantity can exceed the position size
(see the counterexample) — and with no override and no percentage the
full held quantity is sold. -/
theorem sell_qty_override_spec (held q : ℚ) (pct : Option ℚ) (sym : String)
    (hpos : 0 < held) :
    order_sell_qty held (some q) pct sym = .ok q ∧
    order_sell_qty held none none sym = .ok held := by
  constructor <;> simp [order_sell_qty, if_neg (not_le.mpr hpos)]

/-- C8 witness: the amended theorem at 5 shares held with override 10. -/
theorem sell_qty_override_spec_witness :
    (0 : ℚ) < 5 ∧
    order_sell_qty 5 (some 10) none "SPY" = .ok 10 ∧
    order_sell_qty 5 none none "SPY" = .ok 5 :=
  ⟨by norm_num,
    (sell_qty_override_spec 5 10 none "SPY" (by norm_num)).1,
    (sell_qty_override_spec 5 10 none "SPY" (by norm_num)).2⟩
